import Mathlib

/-
Verification of the statistics/ranking core of the speed-test analysis
scripts (analysis.py / speed_analysis.py).

Shallow embedding conventions:
  * Python floats are modelled as exact rationals (ℚ); the square root in
    the sample standard deviation forces the consistency layer into ℝ.
  * A JSON record is a structure of optional fields: a missing key is
    `none`.  `entry["download"]["mbps"]` succeeding is modelled by the
    `download` field being `some`.
  * Fallible Python operations (min/max/median on an empty list, division,
    `statistics.stdev` on fewer than two points) additionally get an
    Option-valued embedding (the `E`-suffixed definitions) used to express
    "no exception propagates"; the plain definitions give the value the
    code produces on the non-raising paths.
  * Python `sorted(..., key=..., reverse=...)` (a stable sort by the given
    key) is modelled by `List.insertionSort`, which is stable, with the
    corresponding key order.
-/

namespace SpeedAnalysis

/-- One speed-test record.  Each field is the value reached by the
corresponding key path (`download.mbps`, `upload.mbps`, `ping.latency`,
`direction_degrees`, `tilt`); `none` models a missing key. -/
structure Record where
  download : Option ℚ
  upload : Option ℚ
  ping : Option ℚ
  direction_degrees : Option ℚ
  tilt : Option ℚ
deriving DecidableEq

/-- The three metric series built by `extract_metrics`
(`metrics["download"]`, `metrics["upload"]`, `metrics["latency"]`). -/
structure Metrics where
  download : List ℚ
  upload : List ℚ
  latency : List ℚ
deriving DecidableEq

/-- One iteration of the loop body of `extract_metrics`: the three appends
run in order inside a `try`, and a `KeyError` aborts the body at the point
where the key is missing, keeping the appends already performed. -/
def extractStep (m : Metrics) (e : Record) : Metrics :=
  match e.download with
  | none => m
  | some d =>
    let m1 : Metrics := { m with download := m.download ++ [d] }
    match e.upload with
    | none => m1
    | some u =>
      let m2 : Metrics := { m1 with upload := m1.upload ++ [u] }
      match e.ping with
      | none => m2
      | some p => { m2 with latency := m2.latency ++ [p] }

/-- Model of `extract_metrics`: fold the `try`/`except KeyError: continue` loop body
over the record list, starting from three empty series. -/
def extract_metrics (data : List Record) : Metrics :=
  data.foldl extractStep ⟨[], [], []⟩

/-- Result shape of `calculate_statistics`. -/
structure Stats where
  min : ℚ
  median : ℚ
  max : ℚ
deriving DecidableEq

/-- Python `min` over a non-empty list (the `[]` case is never reached
behind the guard in `calculate_statistics`). -/
def listMin : List ℚ → ℚ
  | [] => 0
  | x :: xs => xs.foldl min x

/-- Python `max` over a non-empty list. -/
def listMax : List ℚ → ℚ
  | [] => 0
  | x :: xs => xs.foldl max x

/-- Model of `statistics.median`: sort, take the middle element for odd length, the
mean of the two middle elements for even length.  (The stdlib raises on an
empty list; `calculate_statistics` guards that case, so the default value
of this total model is never reached there.) -/
def median (values : List ℚ) : ℚ :=
  let s := List.insertionSort (· ≤ ·) values
  let n := values.length
  if n % 2 = 1 then s.getD (n / 2) 0
  else (s.getD (n / 2 - 1) 0 + s.getD (n / 2) 0) / 2

/-- Model of `calculate_statistics`: all-zero statistics for an empty series,
otherwise min / median / max of the series. -/
def calculate_statistics (values : List ℚ) : Stats :=
  if values = [] then ⟨0, 0, 0⟩
  else ⟨listMin values, median values, listMax values⟩

/-- Python `min` as a fallible operation: raises (`none`) on `[]`. -/
def pyMin (l : List ℚ) : Option ℚ :=
  match l with
  | [] => none
  | x :: xs => some (xs.foldl min x)

/-- Python `max` as a fallible operation: raises (`none`) on `[]`. -/
def pyMax (l : List ℚ) : Option ℚ :=
  match l with
  | [] => none
  | x :: xs => some (xs.foldl max x)

/-- Model of `statistics.median` as a fallible operation: raises on `[]`. -/
def pyMedian (l : List ℚ) : Option ℚ :=
  if l = [] then none else some (median l)

/-- Python float division as a fallible operation: raises
`ZeroDivisionError` (`none`) when the divisor is zero. -/
def pyDiv (a b : ℚ) : Option ℚ :=
  if b = 0 then none else some (a / b)

/-- Model of `calculate_statistics` with the fallible primitives made explicit: the
result is `none` exactly when an exception would propagate. -/
def calculate_statisticsE (values : List ℚ) : Option Stats :=
  if values = [] then some ⟨0, 0, 0⟩
  else do
    let mn ← pyMin values
    let md ← pyMedian values
    let mx ← pyMax values
    pure ⟨mn, md, mx⟩

/-- The `averages` sub-dictionary of a dataset analysis. -/
structure Averages where
  download : ℚ
  upload : ℚ
  latency : ℚ
deriving DecidableEq

/-- The fields of the analysis dictionary built by `analyze_file_silent`
that the statistics core reads (`rank_datasets` and
`calculate_consistency_metrics` access exactly these keys). -/
structure Analysis where
  filename : String
  metrics : Metrics
  download_stats : Stats
  upload_stats : Stats
  latency_stats : Stats
  averages : Averages
deriving DecidableEq

/-- Model of `calculate_heuristic_score`: `(avg_download + avg_upload) / avg_latency`,
with an explicit guard returning `0` when `avg_latency == 0`. -/
def calculate_heuristic_score (analysis : Analysis) : ℚ :=
  if analysis.averages.latency = 0 then 0
  else (analysis.averages.download + analysis.averages.upload) / analysis.averages.latency

/-- Model of `calculate_heuristic_score` with the division made explicitly fallible. -/
def calculate_heuristic_scoreE (analysis : Analysis) : Option ℚ :=
  if analysis.averages.latency = 0 then some 0
  else pyDiv (analysis.averages.download + analysis.averages.upload) analysis.averages.latency

/-- Key order used by `sorted(..., key=lambda x: x[1])`: ascending by the
value component. -/
def ascVal (a b : String × ℚ) : Prop := a.2 ≤ b.2

/-- Key order used by `sorted(..., key=lambda x: x[1], reverse=True)`:
descending by the value component. -/
def descVal (a b : String × ℚ) : Prop := b.2 ≤ a.2

instance : DecidableRel ascVal := fun a b => inferInstanceAs (Decidable (a.2 ≤ b.2))

instance : DecidableRel descVal := fun a b => inferInstanceAs (Decidable (b.2 ≤ a.2))

instance : IsTotal (String × ℚ) ascVal := ⟨fun a b => le_total a.2 b.2⟩

instance : IsTotal (String × ℚ) descVal := ⟨fun a b => le_total b.2 a.2⟩

instance : IsTrans (String × ℚ) ascVal := ⟨fun _ _ _ h1 h2 => le_trans h1 h2⟩

instance : IsTrans (String × ℚ) descVal := ⟨fun _ _ _ h1 h2 => le_trans h2 h1⟩

/-- Body of `rank_datasets`, parameterised over the already computed
heuristic-score pairs: for each criterion, pair every dataset's filename
with the criterion's value and sort — descending for every criterion except
the two latency ones, which sort ascending.  The Python dictionary, whose
keys are inserted in this fixed order, is modelled as an association
list. -/
def rank_build (analyses : List Analysis) (heuristic_scores : List (String × ℚ)) :
    List (String × List (String × ℚ)) :=
  let avg_download := analyses.map (fun a => (a.filename, a.averages.download))
  let avg_upload := analyses.map (fun a => (a.filename, a.averages.upload))
  let avg_latency := analyses.map (fun a => (a.filename, a.averages.latency))
  let median_download := analyses.map (fun a => (a.filename, a.download_stats.median))
  let median_upload := analyses.map (fun a => (a.filename, a.upload_stats.median))
  let median_latency := analyses.map (fun a => (a.filename, a.latency_stats.median))
  let max_download := analyses.map (fun a => (a.filename, a.download_stats.max))
  let max_upload := analyses.map (fun a => (a.filename, a.upload_stats.max))
  let min_download := analyses.map (fun a => (a.filename, a.download_stats.min))
  let min_upload := analyses.map (fun a => (a.filename, a.upload_stats.min))
  [("heuristic", List.insertionSort descVal heuristic_scores),
   ("avg_download", List.insertionSort descVal avg_download),
   ("avg_upload", List.insertionSort descVal avg_upload),
   ("avg_latency", List.insertionSort ascVal avg_latency),
   ("median_download", List.insertionSort descVal median_download),
   ("median_upload", List.insertionSort descVal median_upload),
   ("median_latency", List.insertionSort ascVal median_latency),
   ("max_download", List.insertionSort descVal max_download),
   ("max_upload", List.insertionSort descVal max_upload),
   ("min_download", List.insertionSort descVal min_download),
   ("min_upload", List.insertionSort descVal min_upload)]

/-- Model of `rank_datasets`: pair every dataset's filename with each criterion's
value and sort (see `rank_build` for the sort directions and key order). -/
def rank_datasets (analyses : List Analysis) : List (String × List (String × ℚ)) :=
  rank_build analyses (analyses.map (fun a => (a.filename, calculate_heuristic_score a)))

/-- Model of `rank_datasets` with the heuristic-score computation explicitly
fallible (the sorts and list comprehensions cannot raise). -/
def rank_datasetsE (analyses : List Analysis) : Option (List (String × List (String × ℚ))) := do
  let heuristic_scores ← analyses.mapM (fun a => do
    let s ← calculate_heuristic_scoreE a
    pure (a.filename, s))
  pure (rank_build analyses heuristic_scores)

/-- One step of the scan underlying `statistics.mode` (via
`Counter(data).most_common(1)`): keep the current candidate unless a
strictly more frequent value appears later. -/
def modeStep (c : ℚ → Nat) (b x : ℚ) : ℚ :=
  if c b < c x then x else b

/-- Model of `statistics.mode` on a non-empty list: the most frequent value, with
ties broken in favour of the value encountered first (`Counter` preserves
insertion order and `most_common` sorts stably by count). -/
def mode : List ℚ → ℚ
  | [] => 0
  | a :: xs => xs.foldl (modeStep (fun y => (a :: xs).count y)) a

/-- Specification-side characterisation of `statistics.mode`'s result `r`
on list `l`: `l` splits as `l1 ++ r :: l2` where every element strictly
before that occurrence of `r` is strictly less frequent, and every element
after it is no more frequent — i.e. `r` has maximal frequency and is the
first-encountered value achieving it. -/
def IsFirstMode (l : List ℚ) (r : ℚ) : Prop :=
  ∃ l1 l2, l = l1 ++ r :: l2 ∧
    (∀ y ∈ l1, l.count y < l.count r) ∧ (∀ y ∈ l2, l.count y ≤ l.count r)

/-- Result shape of `get_directional_info` on non-empty input:
the distinct direction and tilt values seen, and the primary (modal)
direction and tilt.  (Python's `list(set(...))` has unspecified element
order, so the distinct values are modelled as finite sets.) -/
structure DirectionalInfo where
  direction_degrees : Finset ℚ
  tilt_degrees : Finset ℚ
  primary_direction : ℚ
  primary_tilt : ℚ

/-- Model of `entry.get("direction_degrees", 0)`. -/
def dirOf (e : Record) : ℚ := e.direction_degrees.getD 0

/-- Model of `entry.get("tilt", 0)`. -/
def tiltOf (e : Record) : ℚ := e.tilt.getD 0

/-- Model of `get_directional_info`: empty mapping (`none`) on empty input;
otherwise the distinct directions/tilts seen and the modal (primary)
direction and tilt, each falling back to `0` for an empty value list. -/
def get_directional_info (data : List Record) : Option DirectionalInfo :=
  if data = [] then none
  else
    let directions := data.map dirOf
    let tilts := data.map tiltOf
    some
      { direction_degrees := directions.toFinset
        tilt_degrees := tilts.toFinset
        primary_direction := if directions = [] then 0 else mode directions
        primary_tilt := if tilts = [] then 0 else mode tilts }

/-- Mean of a series of floats (`statistics.mean`; total model, only used
behind non-empty guards). -/
def mean (xs : List ℚ) : ℚ := xs.sum / xs.length

/-- Model of `statistics.stdev` for a series of at least two points: the square root
of the sample variance `Σ (x - mean)² / (n - 1)`. -/
noncomputable def sampleStdev (xs : List ℚ) : ℝ :=
  Real.sqrt (((xs.map (fun x : ℚ => ((x : ℝ) - (mean xs : ℝ)) ^ 2)).sum) / (xs.length - 1))

/-- The guarded standard deviation used by `calculate_consistency_metrics`:
`statistics.stdev(xs) if len(xs) > 1 else 0`. -/
noncomputable def stdevOrZero (xs : List ℚ) : ℝ :=
  if 1 < xs.length then sampleStdev xs else 0

/-- Model of `statistics.stdev` as a fallible operation: raises on fewer than two
points. -/
noncomputable def pyStdev (xs : List ℚ) : Option ℝ :=
  if 1 < xs.length then some (sampleStdev xs) else none

/-- Python float division with a rational divisor, fallible: raises
`ZeroDivisionError` when the divisor is zero. -/
noncomputable def pyDivR (a : ℝ) (b : ℚ) : Option ℝ :=
  if b = 0 then none else some (a / (b : ℝ))

/-- Per-metric triple of real values (`download`, `upload`, `latency`). -/
structure MetricTriple where
  download : ℝ
  upload : ℝ
  latency : ℝ

/-- The `stability_scores` sub-dictionary. -/
structure StabilityScores where
  download : ℝ
  upload : ℝ
  latency : ℝ
  overall : ℝ

/-- Result shape of `calculate_consistency_metrics`. -/
structure ConsistencyMetrics where
  standard_deviations : MetricTriple
  coefficients_of_variation : MetricTriple
  stability_scores : StabilityScores

/-- Model of `calculate_consistency_metrics`: per metric, the guarded sample
standard deviation, the coefficient of variation (stdev over the stored
average, `0` unless the average is positive), the stability score
`max(0, 100 - cv*100)`, and the fixed-weight overall score. -/
noncomputable def calculate_consistency_metrics (analysis : Analysis) : ConsistencyMetrics :=
  let download_std := stdevOrZero analysis.metrics.download
  let upload_std := stdevOrZero analysis.metrics.upload
  let latency_std := stdevOrZero analysis.metrics.latency
  let download_cv :=
    if 0 < analysis.averages.download then download_std / (analysis.averages.download : ℝ) else 0
  let upload_cv :=
    if 0 < analysis.averages.upload then upload_std / (analysis.averages.upload : ℝ) else 0
  let latency_cv :=
    if 0 < analysis.averages.latency then latency_std / (analysis.averages.latency : ℝ) else 0
  let download_stability := max 0 (100 - download_cv * 100)
  let upload_stability := max 0 (100 - upload_cv * 100)
  let latency_stability := max 0 (100 - latency_cv * 100)
  let overall_stability :=
    download_stability * 0.4 + upload_stability * 0.3 + latency_stability * 0.3
  { standard_deviations := ⟨download_std, upload_std, latency_std⟩
    coefficients_of_variation := ⟨download_cv, upload_cv, latency_cv⟩
    stability_scores := ⟨download_stability, upload_stability, latency_stability, overall_stability⟩ }

/-- Model of `calculate_consistency_metrics` with the fallible primitives made
explicit (`statistics.stdev` on short series behind its length guard,
float division behind the positive-average guard). -/
noncomputable def calculate_consistency_metricsE (analysis : Analysis) : Option ConsistencyMetrics := do
  let download_std ←
    (if 1 < analysis.metrics.download.length then pyStdev analysis.metrics.download else some 0)
  let upload_std ←
    (if 1 < analysis.metrics.upload.length then pyStdev analysis.metrics.upload else some 0)
  let latency_std ←
    (if 1 < analysis.metrics.latency.length then pyStdev analysis.metrics.latency else some 0)
  let download_cv ←
    (if 0 < analysis.averages.download then pyDivR download_std analysis.averages.download
     else some 0)
  let upload_cv ←
    (if 0 < analysis.averages.upload then pyDivR upload_std analysis.averages.upload
     else some 0)
  let latency_cv ←
    (if 0 < analysis.averages.latency then pyDivR latency_std analysis.averages.latency
     else some 0)
  let download_stability := max 0 (100 - download_cv * 100)
  let upload_stability := max 0 (100 - upload_cv * 100)
  let latency_stability := max 0 (100 - latency_cv * 100)
  let overall_stability :=
    download_stability * 0.4 + upload_stability * 0.3 + latency_stability * 0.3
  pure
    { standard_deviations := ⟨download_std, upload_std, latency_std⟩
      coefficients_of_variation := ⟨download_cv, upload_cv, latency_cv⟩
      stability_scores :=
        ⟨download_stability, upload_stability, latency_stability, overall_stability⟩ }

/-- A record carrying `download.mbps` and `upload.mbps` but no `ping` key. -/
def recMissingPing : Record := ⟨some 100, some 20, none, none, none⟩

/-- Fixture dataset A: averages dl=50, ul=10, lat=20. -/
def fixtureA : Analysis := ⟨"A", ⟨[], [], []⟩, ⟨0, 0, 0⟩, ⟨0, 0, 0⟩, ⟨0, 0, 0⟩, ⟨50, 10, 20⟩⟩

/-- Fixture dataset B: averages dl=100, ul=20, lat=10. -/
def fixtureB : Analysis := ⟨"B", ⟨[], [], []⟩, ⟨0, 0, 0⟩, ⟨0, 0, 0⟩, ⟨0, 0, 0⟩, ⟨100, 20, 10⟩⟩

/-- Fixture dataset C: averages dl=75, ul=15, lat=15. -/
def fixtureC : Analysis := ⟨"C", ⟨[], [], []⟩, ⟨0, 0, 0⟩, ⟨0, 0, 0⟩, ⟨0, 0, 0⟩, ⟨75, 15, 15⟩⟩

/-- A dataset analysis whose average latency is zero. -/
def zeroLatencyAnalysis : Analysis :=
  ⟨"Z", ⟨[7, 7], [3, 3], []⟩, ⟨7, 7, 7⟩, ⟨3, 3, 3⟩, ⟨0, 0, 0⟩, ⟨7, 3, 0⟩⟩

/-- A dataset analysis whose metric series are constant and non-negative,
with averages equal to the series means. -/
def constSeriesAnalysis : Analysis :=
  ⟨"K", ⟨[5, 5, 5], [2, 2, 2], [30, 30, 30]⟩, ⟨5, 5, 5⟩, ⟨2, 2, 2⟩, ⟨30, 30, 30⟩, ⟨5, 2, 30⟩⟩

/-- A record carrying only orientation data. -/
def recOriented : Record := ⟨none, none, none, some 10, some 5⟩

lemma foldl_min_le_init (xs : List ℚ) : ∀ b : ℚ, xs.foldl min b ≤ b := by
  induction xs with
  | nil => intro b; simp
  | cons x xs ih =>
    intro b
    exact le_trans (ih (min b x)) (min_le_left b x)

lemma foldl_min_le_mem (xs : List ℚ) : ∀ b x : ℚ, x ∈ xs → xs.foldl min b ≤ x := by
  induction xs with
  | nil => intro b x hx; cases hx
  | cons a xs ih =>
    intro b x hx
    rcases List.mem_cons.mp hx with h | h
    · subst h
      exact le_trans (foldl_min_le_init xs (min b x)) (min_le_right b x)
    · exact ih (min b a) x h

lemma listMin_le (l : List ℚ) (x : ℚ) (hx : x ∈ l) : listMin l ≤ x := by
  cases l with
  | nil => cases hx
  | cons a xs =>
    rcases List.mem_cons.mp hx with h | h
    · subst h; exact foldl_min_le_init xs x
    · exact foldl_min_le_mem xs a x h

lemma init_le_foldl_max (xs : List ℚ) : ∀ b : ℚ, b ≤ xs.foldl max b := by
  induction xs with
  | nil => intro b; simp
  | cons x xs ih =>
    intro b
    exact le_trans (le_max_left b x) (ih (max b x))

lemma mem_le_foldl_max (xs : List ℚ) : ∀ b x : ℚ, x ∈ xs → x ≤ xs.foldl max b := by
  induction xs with
  | nil => intro b x hx; cases hx
  | cons a xs ih =>
    intro b x hx
    rcases List.mem_cons.mp hx with h | h
    · subst h
      exact le_trans (le_max_right b x) (init_le_foldl_max xs (max b x))
    · exact ih (max b a) x h

lemma le_listMax (l : List ℚ) (x : ℚ) (hx : x ∈ l) : x ≤ listMax l := by
  cases l with
  | nil => cases hx
  | cons a xs =>
    rcases List.mem_cons.mp hx with h | h
    · subst h; exact init_le_foldl_max xs x
    · exact mem_le_foldl_max xs a x h

lemma sorted_getD_mem (l : List ℚ) (i : Nat) (h : i < l.length) :
    (List.insertionSort (fun x1 x2 => x1 ≤ x2) l).getD i 0 ∈ l := by
  have hp := List.perm_insertionSort (fun x1 x2 : ℚ => x1 ≤ x2) l
  have hi : i < (List.insertionSort (fun x1 x2 : ℚ => x1 ≤ x2) l).length := by
    rw [hp.length_eq]; exact h
  rw [List.getD_eq_getElem _ 0 hi]
  exact hp.mem_iff.mp (List.getElem_mem hi)

lemma median_bounds (values : List ℚ) (h : values ≠ []) :
    listMin values ≤ median values ∧ median values ≤ listMax values := by
  have hpos : 0 < values.length := List.length_pos.mpr h
  unfold median
  by_cases hodd : values.length % 2 = 1
  · rw [if_pos hodd]
    have h1 : values.length / 2 < values.length := Nat.div_lt_self hpos (by norm_num)
    have hm := sorted_getD_mem values (values.length / 2) h1
    exact ⟨listMin_le values _ hm, le_listMax values _ hm⟩
  · rw [if_neg hodd]
    have h1 : values.length / 2 < values.length := Nat.div_lt_self hpos (by norm_num)
    have h2 : values.length / 2 - 1 < values.length :=
      Nat.lt_of_le_of_lt (Nat.sub_le _ _) h1
    have hma := sorted_getD_mem values (values.length / 2 - 1) h2
    have hmb := sorted_getD_mem values (values.length / 2) h1
    constructor
    · have ha := listMin_le values _ hma
      have hb := listMin_le values _ hmb
      linarith
    · have ha := le_listMax values _ hma
      have hb := le_listMax values _ hmb
      linarith

/-- C4: `calculate_statistics` on the empty sequence returns all zeros and
raises no exception (the fallible embedding returns a value, not `none`). -/
theorem c4_empty_statistics :
    calculate_statistics [] = ⟨0, 0, 0⟩ ∧ calculate_statisticsE [] = some ⟨0, 0, 0⟩ :=
  ⟨rfl, rfl⟩

/-- C1: on a record list whose single entry has `download.mbps` and
`upload.mbps` but no `ping` key, `extract_metrics` appends the download and
upload values before the `KeyError` aborts the loop body, so the entry is
partially included and the three series do not keep equal lengths — the
code contradicts the skip-the-record-entirely policy. -/
theorem c1_missing_ping_partial_inclusion :
    extract_metrics [recMissingPing] = ⟨[100], [20], []⟩ ∧
    (extract_metrics [recMissingPing]).download.length = 1 ∧
    (extract_metrics [recMissingPing]).upload.length = 1 ∧
    (extract_metrics [recMissingPing]).latency.length = 0 := by
  decide

/-- C3: `calculate_heuristic_score` returns `0` when the average latency is
zero and `(avg_download + avg_upload) / avg_latency` otherwise, and its
fallible embedding never raises (the division is guarded). -/
theorem c3_heuristic_score (a : Analysis) :
    (a.averages.latency = 0 → calculate_heuristic_score a = 0) ∧
    (a.averages.latency ≠ 0 → calculate_heuristic_score a
        = (a.averages.download + a.averages.upload) / a.averages.latency) ∧
    calculate_heuristic_scoreE a = some (calculate_heuristic_score a) := by
  refine ⟨fun h => ?_, fun h => ?_, ?_⟩
  · simp [calculate_heuristic_score, h]
  · simp [calculate_heuristic_score, h]
  · by_cases h : a.averages.latency = 0 <;>
      simp [calculate_heuristic_score, calculate_heuristic_scoreE, pyDiv, h]

theorem c3_witness :
    (zeroLatencyAnalysis.averages.latency = 0 ∧
      calculate_heuristic_score zeroLatencyAnalysis = 0) ∧
    (fixtureB.averages.latency ≠ 0 ∧
      calculate_heuristic_score fixtureB
        = (fixtureB.averages.download + fixtureB.averages.upload) / fixtureB.averages.latency) :=
  ⟨⟨rfl, (c3_heuristic_score zeroLatencyAnalysis).1 rfl⟩,
   ⟨by decide, (c3_heuristic_score fixtureB).2.1 (by decide)⟩⟩

/-- C5: for every non-empty series, the statistics returned by
`calculate_statistics` satisfy `min ≤ median ≤ max`. -/
theorem c5_statistics_ordered (values : List ℚ) (h : values ≠ []) :
    (calculate_statistics values).min ≤ (calculate_statistics values).median ∧
    (calculate_statistics values).median ≤ (calculate_statistics values).max := by
  have hb := median_bounds values h
  simp only [calculate_statistics, if_neg h]
  exact hb

theorem c5_witness :
    ([3, 1, 2] : List ℚ) ≠ [] ∧
    ((calculate_statistics [3, 1, 2]).min ≤ (calculate_statistics [3, 1, 2]).median ∧
      (calculate_statistics [3, 1, 2]).median ≤ (calculate_statistics [3, 1, 2]).max) :=
  ⟨by decide, c5_statistics_ordered [3, 1, 2] (by decide)⟩

lemma ranked_length_perm (r : (String × ℚ) → (String × ℚ) → Prop) [DecidableRel r]
    (analyses : List Analysis) (f : Analysis → ℚ) :
    (List.insertionSort r (analyses.map (fun a => (a.filename, f a)))).length = analyses.length ∧
    ((List.insertionSort r (analyses.map (fun a => (a.filename, f a)))).map Prod.fst).Perm
      (analyses.map fun a => a.filename) := by
  have hp := List.perm_insertionSort r (analyses.map (fun a => (a.filename, f a)))
  constructor
  · rw [hp.length_eq, List.length_map]
  · have hm := hp.map Prod.fst
    simpa [List.map_map, Function.comp] using hm

/-- C2: every ranking produced by `rank_datasets` is sorted ascending by
value for the two latency criteria and descending by value for every other
criterion; on the three-dataset fixture the heuristic ranking is
B, C, A with scores 12, 6, 3 and the average-latency ranking is B, C, A
with values 10, 15, 20. -/
theorem c2_ranking_directions :
    (∀ (analyses : List Analysis) (key : String) (r : List (String × ℚ)),
        (key, r) ∈ rank_datasets analyses →
          if key = "avg_latency" ∨ key = "median_latency"
          then List.Sorted ascVal r
          else List.Sorted descVal r) ∧
    (rank_datasets [fixtureA, fixtureB, fixtureC]).lookup "heuristic"
        = some [("B", 12), ("C", 6), ("A", 3)] ∧
    (rank_datasets [fixtureA, fixtureB, fixtureC]).lookup "avg_latency"
        = some [("B", 10), ("C", 15), ("A", 20)] := by
  refine ⟨?_, ?_, ?_⟩
  · intro analyses key r hmem
    simp only [rank_datasets, rank_build, List.mem_cons, List.not_mem_nil, or_false,
      Prod.mk.injEq] at hmem
    rcases hmem with h | h | h | h | h | h | h | h | h | h | h <;>
      obtain ⟨rfl, rfl⟩ := h <;>
      first
        | (rw [if_pos (by decide)]; exact List.sorted_insertionSort ascVal _)
        | (rw [if_neg (by decide)]; exact List.sorted_insertionSort descVal _)
  · norm_num [rank_datasets, rank_build, fixtureA, fixtureB, fixtureC,
      calculate_heuristic_score, descVal, ascVal, List.lookup]
  · norm_num [rank_datasets, rank_build, fixtureA, fixtureB, fixtureC,
      calculate_heuristic_score, descVal, ascVal, List.lookup]
    rfl

theorem c2_witness :
    ("heuristic", [("B", (12 : ℚ)), ("C", 6), ("A", 3)])
        ∈ rank_datasets [fixtureA, fixtureB, fixtureC] ∧
    (if "heuristic" = "avg_latency" ∨ "heuristic" = "median_latency"
     then List.Sorted ascVal [("B", (12 : ℚ)), ("C", 6), ("A", 3)]
     else List.Sorted descVal [("B", (12 : ℚ)), ("C", 6), ("A", 3)]) := by
  have hmem : ("heuristic", [("B", (12 : ℚ)), ("C", 6), ("A", 3)])
      ∈ rank_datasets [fixtureA, fixtureB, fixtureC] := by
    norm_num [rank_datasets, rank_build, fixtureA, fixtureB, fixtureC,
      calculate_heuristic_score, descVal, ascVal]
  exact ⟨hmem, c2_ranking_directions.1 [fixtureA, fixtureB, fixtureC] _ _ hmem⟩

/-- C10: `rank_datasets` produces exactly the eleven expected criteria, in
insertion order, and every ranking contains exactly one pair per input
analysis: its length is the number of analyses and its filenames are a
permutation of the input filenames. -/
theorem c10_rankings_complete (analyses : List Analysis) :
    (rank_datasets analyses).map Prod.fst =
      ["heuristic", "avg_download", "avg_upload", "avg_latency", "median_download",
       "median_upload", "median_latency", "max_download", "max_upload", "min_download",
       "min_upload"] ∧
    ∀ key r, (key, r) ∈ rank_datasets analyses →
      r.length = analyses.length ∧
      (r.map Prod.fst).Perm (analyses.map fun a => a.filename) := by
  constructor
  · simp [rank_datasets, rank_build]
  · intro key r hmem
    simp only [rank_datasets, rank_build, List.mem_cons, List.not_mem_nil, or_false,
      Prod.mk.injEq] at hmem
    rcases hmem with h | h | h | h | h | h | h | h | h | h | h <;>
      obtain ⟨-, rfl⟩ := h <;>
      exact ranked_length_perm _ _ _

theorem c10_witness :
    ("avg_latency", [("B", (10 : ℚ)), ("C", 15), ("A", 20)])
        ∈ rank_datasets [fixtureA, fixtureB, fixtureC] ∧
    ([("B", (10 : ℚ)), ("C", 15), ("A", 20)].length = [fixtureA, fixtureB, fixtureC].length ∧
      ([("B", (10 : ℚ)), ("C", 15), ("A", 20)].map Prod.fst).Perm
        ([fixtureA, fixtureB, fixtureC].map fun a => a.filename)) := by
  have hmem : ("avg_latency", [("B", (10 : ℚ)), ("C", 15), ("A", 20)])
      ∈ rank_datasets [fixtureA, fixtureB, fixtureC] := by
    norm_num [rank_datasets, rank_build, fixtureA, fixtureB, fixtureC,
      calculate_heuristic_score, descVal, ascVal]
  exact ⟨hmem, (c10_rankings_complete [fixtureA, fixtureB, fixtureC]).2 _ _ hmem⟩

lemma foldl_modeStep_spec (c : ℚ → Nat) (xs : List ℚ) : ∀ b : ℚ,
    (xs.foldl (modeStep c) b = b ∧ ∀ x ∈ xs, c x ≤ c b) ∨
    (∃ l1 r l2, xs = l1 ++ r :: l2 ∧ xs.foldl (modeStep c) b = r ∧ c b < c r ∧
      (∀ y ∈ l1, c y < c r) ∧ (∀ y ∈ l2, c y ≤ c r)) := by
  induction xs with
  | nil => intro b; exact Or.inl ⟨rfl, by simp⟩
  | cons x xs ih =>
    intro b
    by_cases hx : c b < c x
    · have hstep : (x :: xs).foldl (modeStep c) b = xs.foldl (modeStep c) x := by
        simp [modeStep, hx]
      rcases ih x with ⟨he, hall⟩ | ⟨l1, r, l2, hxs, he, hbr, h1, h2⟩
      · exact Or.inr ⟨[], x, xs, by simp, by rw [hstep]; exact he, hx, by simp, hall⟩
      · refine Or.inr ⟨x :: l1, r, l2, by rw [hxs]; rfl, by rw [hstep]; exact he,
          lt_trans hx hbr, ?_, h2⟩
        intro y hy
        rcases List.mem_cons.mp hy with h | h
        · subst h; exact hbr
        · exact h1 y h
    · have hstep : (x :: xs).foldl (modeStep c) b = xs.foldl (modeStep c) b := by
        simp [modeStep, hx]
      rcases ih b with ⟨he, hall⟩ | ⟨l1, r, l2, hxs, he, hbr, h1, h2⟩
      · refine Or.inl ⟨by rw [hstep]; exact he, ?_⟩
        intro y hy
        rcases List.mem_cons.mp hy with h | h
        · subst h; exact not_lt.mp hx
        · exact hall y h
      · refine Or.inr ⟨x :: l1, r, l2, by rw [hxs]; rfl, by rw [hstep]; exact he, hbr, ?_, h2⟩
        intro y hy
        rcases List.mem_cons.mp hy with h | h
        · subst h; exact lt_of_le_of_lt (not_lt.mp hx) hbr
        · exact h1 y h

lemma mode_isFirstMode (l : List ℚ) (h : l ≠ []) : IsFirstMode l (mode l) := by
  cases l with
  | nil => exact absurd rfl h
  | cons a xs =>
    have hm : mode (a :: xs) = xs.foldl (modeStep (fun y => (a :: xs).count y)) a := rfl
    rcases foldl_modeStep_spec (fun y => (a :: xs).count y) xs a with
      ⟨he, hall⟩ | ⟨l1, r, l2, hxs, he, hbr, h1, h2⟩
    · refine ⟨[], xs, ?_, by simp, ?_⟩
      · rw [hm, he]
        rfl
      · intro y hy
        rw [hm, he]
        exact hall y hy
    · refine ⟨a :: l1, l2, ?_, ?_, ?_⟩
      · rw [hm, he, hxs]
        rfl
      · intro y hy
        rw [hm, he]
        rcases List.mem_cons.mp hy with hya | hyl
        · subst hya; exact hbr
        · exact h1 y hyl
      · intro y hy
        rw [hm, he]
        exact h2 y hy

/-- C8: `get_directional_info` returns the empty mapping on an empty record
list; on a non-empty list it returns the set of distinct direction and tilt
values seen, with the primary direction and tilt each being the statistical
mode — the most frequent value, ties broken by the value encountered first
(`IsFirstMode`); and on directions `[10, 10, 20]` the mode is `10`. -/
theorem c8_directional_info :
    get_directional_info [] = none ∧
    (∀ data : List Record, data ≠ [] →
        ∃ info, get_directional_info data = some info ∧
          info.direction_degrees = (data.map dirOf).toFinset ∧
          info.tilt_degrees = (data.map tiltOf).toFinset ∧
          IsFirstMode (data.map dirOf) info.primary_direction ∧
          IsFirstMode (data.map tiltOf) info.primary_tilt) ∧
    mode [10, 10, 20] = 10 := by
  refine ⟨rfl, ?_, by decide⟩
  intro data hdata
  have hdir : data.map dirOf ≠ [] := fun hc => hdata (by simpa using hc)
  have htilt : data.map tiltOf ≠ [] := fun hc => hdata (by simpa using hc)
  refine ⟨⟨(data.map dirOf).toFinset, (data.map tiltOf).toFinset,
    mode (data.map dirOf), mode (data.map tiltOf)⟩, ?_, rfl, rfl,
    mode_isFirstMode _ hdir, mode_isFirstMode _ htilt⟩
  simp [get_directional_info, hdata, hdir, htilt]

theorem c8_witness :
    ([recOriented] : List Record) ≠ [] ∧
    ∃ info, get_directional_info [recOriented] = some info ∧
      info.direction_degrees = ([recOriented].map dirOf).toFinset ∧
      info.tilt_degrees = ([recOriented].map tiltOf).toFinset ∧
      IsFirstMode ([recOriented].map dirOf) info.primary_direction ∧
      IsFirstMode ([recOriented].map tiltOf) info.primary_tilt :=
  ⟨by decide, c8_directional_info.2.1 [recOriented] (by decide)⟩

lemma stdevOrZero_nonneg (xs : List ℚ) : 0 ≤ stdevOrZero xs := by
  unfold stdevOrZero
  split_ifs
  · exact Real.sqrt_nonneg _
  · exact le_refl 0

lemma mean_const (xs : List ℚ) (m : ℚ) (hne : xs ≠ []) (h : ∀ x ∈ xs, x = m) :
    mean xs = m := by
  unfold mean
  rw [List.sum_eq_card_nsmul xs m h, nsmul_eq_mul]
  have hlen : (xs.length : ℚ) ≠ 0 := by
    have hpos := List.length_pos.mpr hne
    exact_mod_cast Nat.pos_iff_ne_zero.mp hpos
  field_simp

lemma stdevOrZero_const (xs : List ℚ) (m : ℚ) (h : ∀ x ∈ xs, x = m) :
    stdevOrZero xs = 0 := by
  unfold stdevOrZero
  split_ifs with hlen
  · unfold sampleStdev
    have hne : xs ≠ [] := by
      intro hc
      rw [hc] at hlen
      simp at hlen
    have hmean := mean_const xs m hne h
    have hsum : (xs.map (fun x : ℚ => ((x : ℝ) - (mean xs : ℝ)) ^ 2)).sum = 0 := by
      apply List.sum_eq_zero
      intro y hy
      rcases List.mem_map.mp hy with ⟨z, hz, rfl⟩
      simp [hmean, h z hz]
    rw [hsum, zero_div, Real.sqrt_zero]
  · rfl

lemma cv_nonneg (std : ℝ) (hstd : 0 ≤ std) (avg : ℚ) :
    0 ≤ if 0 < avg then std / (avg : ℝ) else 0 := by
  split_ifs with h
  · exact div_nonneg hstd (le_of_lt (by exact_mod_cast h))
  · exact le_refl 0

lemma stab_bounds (cv : ℝ) (hcv : 0 ≤ cv) :
    0 ≤ max 0 (100 - cv * 100) ∧ max 0 (100 - cv * 100) ≤ 100 :=
  ⟨le_max_left _ _, max_le (by norm_num) (by linarith)⟩

lemma stability_of_std_zero (avg : ℚ) :
    max 0 (100 - (if 0 < avg then (0 : ℝ) / (avg : ℝ) else 0) * 100) = 100 := by
  split_ifs <;> norm_num

/-- C6: the per-metric stability scores of `calculate_consistency_metrics`
equal `max(0, 100 - cv*100)` with `cv` the guarded quotient of the sample
standard deviation by the stored average (0 unless the average is
positive), the overall score is the fixed 0.4/0.3/0.3 weighted sum, and all
four scores lie in `[0, 100]`. -/
theorem c6_stability_bounded (a : Analysis)
    (_hd : ∀ x ∈ a.metrics.download, 0 ≤ x)
    (_hu : ∀ x ∈ a.metrics.upload, 0 ≤ x)
    (_hl : ∀ x ∈ a.metrics.latency, 0 ≤ x) :
    ((calculate_consistency_metrics a).coefficients_of_variation.download =
        (if 0 < a.averages.download then
          (calculate_consistency_metrics a).standard_deviations.download /
            (a.averages.download : ℝ)
         else 0) ∧
      (calculate_consistency_metrics a).coefficients_of_variation.upload =
        (if 0 < a.averages.upload then
          (calculate_consistency_metrics a).standard_deviations.upload /
            (a.averages.upload : ℝ)
         else 0) ∧
      (calculate_consistency_metrics a).coefficients_of_variation.latency =
        (if 0 < a.averages.latency then
          (calculate_consistency_metrics a).standard_deviations.latency /
            (a.averages.latency : ℝ)
         else 0)) ∧
    ((calculate_consistency_metrics a).stability_scores.download =
        max 0 (100 - (calculate_consistency_metrics a).coefficients_of_variation.download * 100) ∧
      (calculate_consistency_metrics a).stability_scores.upload =
        max 0 (100 - (calculate_consistency_metrics a).coefficients_of_variation.upload * 100) ∧
      (calculate_consistency_metrics a).stability_scores.latency =
        max 0 (100 - (calculate_consistency_metrics a).coefficients_of_variation.latency * 100)) ∧
    (calculate_consistency_metrics a).stability_scores.overall =
      0.4 * (calculate_consistency_metrics a).stability_scores.download +
        0.3 * (calculate_consistency_metrics a).stability_scores.upload +
        0.3 * (calculate_consistency_metrics a).stability_scores.latency ∧
    ((0 ≤ (calculate_consistency_metrics a).stability_scores.download ∧
        (calculate_consistency_metrics a).stability_scores.download ≤ 100) ∧
      (0 ≤ (calculate_consistency_metrics a).stability_scores.upload ∧
        (calculate_consistency_metrics a).stability_scores.upload ≤ 100) ∧
      (0 ≤ (calculate_consistency_metrics a).stability_scores.latency ∧
        (calculate_consistency_metrics a).stability_scores.latency ≤ 100) ∧
      (0 ≤ (calculate_consistency_metrics a).stability_scores.overall ∧
        (calculate_consistency_metrics a).stability_scores.overall ≤ 100)) := by
  have hcvd : 0 ≤ (calculate_consistency_metrics a).coefficients_of_variation.download :=
    cv_nonneg _ (stdevOrZero_nonneg a.metrics.download) _
  have hcvu : 0 ≤ (calculate_consistency_metrics a).coefficients_of_variation.upload :=
    cv_nonneg _ (stdevOrZero_nonneg a.metrics.upload) _
  have hcvl : 0 ≤ (calculate_consistency_metrics a).coefficients_of_variation.latency :=
    cv_nonneg _ (stdevOrZero_nonneg a.metrics.latency) _
  have hbd := stab_bounds _ hcvd
  have hbu := stab_bounds _ hcvu
  have hbl := stab_bounds _ hcvl
  have hsd : (calculate_consistency_metrics a).stability_scores.download =
      max 0 (100 - (calculate_consistency_metrics a).coefficients_of_variation.download * 100) :=
    rfl
  have hsu : (calculate_consistency_metrics a).stability_scores.upload =
      max 0 (100 - (calculate_consistency_metrics a).coefficients_of_variation.upload * 100) :=
    rfl
  have hsl : (calculate_consistency_metrics a).stability_scores.latency =
      max 0 (100 - (calculate_consistency_metrics a).coefficients_of_variation.latency * 100) :=
    rfl
  have hov : (calculate_consistency_metrics a).stability_scores.overall =
      (calculate_consistency_metrics a).stability_scores.download * 0.4 +
        (calculate_consistency_metrics a).stability_scores.upload * 0.3 +
        (calculate_consistency_metrics a).stability_scores.latency * 0.3 := rfl
  rw [← hsd] at hbd
  rw [← hsu] at hbu
  rw [← hsl] at hbl
  refine ⟨⟨rfl, rfl, rfl⟩, ⟨hsd, hsu, hsl⟩, by rw [hov]; ring, hbd, hbu, hbl, ?_⟩
  rw [hov]
  constructor <;> linarith [hbd.1, hbd.2, hbu.1, hbu.2, hbl.1, hbl.2]

theorem c6_witness :
    ((∀ x ∈ constSeriesAnalysis.metrics.download, (0 : ℚ) ≤ x) ∧
      (∀ x ∈ constSeriesAnalysis.metrics.upload, (0 : ℚ) ≤ x) ∧
      (∀ x ∈ constSeriesAnalysis.metrics.latency, (0 : ℚ) ≤ x)) ∧
    ((0 ≤ (calculate_consistency_metrics constSeriesAnalysis).stability_scores.download ∧
        (calculate_consistency_metrics constSeriesAnalysis).stability_scores.download ≤ 100) ∧
      (0 ≤ (calculate_consistency_metrics constSeriesAnalysis).stability_scores.upload ∧
        (calculate_consistency_metrics constSeriesAnalysis).stability_scores.upload ≤ 100) ∧
      (0 ≤ (calculate_consistency_metrics constSeriesAnalysis).stability_scores.latency ∧
        (calculate_consistency_metrics constSeriesAnalysis).stability_scores.latency ≤ 100) ∧
      (0 ≤ (calculate_consistency_metrics constSeriesAnalysis).stability_scores.overall ∧
        (calculate_consistency_metrics constSeriesAnalysis).stability_scores.overall ≤ 100)) :=
  ⟨⟨by decide, by decide, by decide⟩,
    (c6_stability_bounded constSeriesAnalysis (by decide) (by decide) (by decide)).2.2.2⟩

/-- C7: the guarded sample standard deviation is `0` whenever a series has
fewer than two points, and for each metric, a non-empty all-identical
series (with the stored average equal to the series mean) yields standard
deviation `0` and stability score `100` for that metric. -/
theorem c7_constant_series_stability :
    (∀ xs : List ℚ, xs.length < 2 → stdevOrZero xs = 0) ∧
    (∀ (a : Analysis) (m : ℚ), a.metrics.download ≠ [] →
        (∀ x ∈ a.metrics.download, x = m) →
        a.averages.download = mean a.metrics.download →
        (calculate_consistency_metrics a).standard_deviations.download = 0 ∧
        (calculate_consistency_metrics a).stability_scores.download = 100) ∧
    (∀ (a : Analysis) (m : ℚ), a.metrics.upload ≠ [] →
        (∀ x ∈ a.metrics.upload, x = m) →
        a.averages.upload = mean a.metrics.upload →
        (calculate_consistency_metrics a).standard_deviations.upload = 0 ∧
        (calculate_consistency_metrics a).stability_scores.upload = 100) ∧
    (∀ (a : Analysis) (m : ℚ), a.metrics.latency ≠ [] →
        (∀ x ∈ a.metrics.latency, x = m) →
        a.averages.latency = mean a.metrics.latency →
        (calculate_consistency_metrics a).standard_deviations.latency = 0 ∧
        (calculate_consistency_metrics a).stability_scores.latency = 100) := by
  refine ⟨?_, ?_, ?_, ?_⟩
  · intro xs hlen
    unfold stdevOrZero
    rw [if_neg]
    omega
  · intro a m hne hc hm
    have hstd : stdevOrZero a.metrics.download = 0 := stdevOrZero_const _ m hc
    have e1 : (calculate_consistency_metrics a).standard_deviations.download =
        stdevOrZero a.metrics.download := rfl
    have e2 : (calculate_consistency_metrics a).stability_scores.download =
        max 0 (100 - (if 0 < a.averages.download then
          stdevOrZero a.metrics.download / (a.averages.download : ℝ) else 0) * 100) := rfl
    rw [e1, e2, hstd]
    exact ⟨rfl, stability_of_std_zero _⟩
  · intro a m hne hc hm
    have hstd : stdevOrZero a.metrics.upload = 0 := stdevOrZero_const _ m hc
    have e1 : (calculate_consistency_metrics a).standard_deviations.upload =
        stdevOrZero a.metrics.upload := rfl
    have e2 : (calculate_consistency_metrics a).stability_scores.upload =
        max 0 (100 - (if 0 < a.averages.upload then
          stdevOrZero a.metrics.upload / (a.averages.upload : ℝ) else 0) * 100) := rfl
    rw [e1, e2, hstd]
    exact ⟨rfl, stability_of_std_zero _⟩
  · intro a m hne hc hm
    have hstd : stdevOrZero a.metrics.latency = 0 := stdevOrZero_const _ m hc
    have e1 : (calculate_consistency_metrics a).standard_deviations.latency =
        stdevOrZero a.metrics.latency := rfl
    have e2 : (calculate_consistency_metrics a).stability_scores.latency =
        max 0 (100 - (if 0 < a.averages.latency then
          stdevOrZero a.metrics.latency / (a.averages.latency : ℝ) else 0) * 100) := rfl
    rw [e1, e2, hstd]
    exact ⟨rfl, stability_of_std_zero _⟩

theorem c7_witness :
    (([(5 : ℚ)] : List ℚ).length < 2 ∧ stdevOrZero [(5 : ℚ)] = 0) ∧
    (constSeriesAnalysis.metrics.download ≠ [] ∧
      constSeriesAnalysis.averages.download = mean constSeriesAnalysis.metrics.download ∧
      ((calculate_consistency_metrics constSeriesAnalysis).standard_deviations.download = 0 ∧
        (calculate_consistency_metrics constSeriesAnalysis).stability_scores.download = 100)) :=
  ⟨⟨by decide, c7_constant_series_stability.1 [(5 : ℚ)] (by decide)⟩,
    ⟨by decide, by norm_num [constSeriesAnalysis, mean],
      c7_constant_series_stability.2.1 constSeriesAnalysis 5 (by decide) (by decide)
        (by norm_num [constSeriesAnalysis, mean])⟩⟩

lemma stdE_eq (xs : List ℚ) :
    (if 1 < xs.length then pyStdev xs else some 0) = some (stdevOrZero xs) := by
  unfold pyStdev stdevOrZero
  split_ifs <;> rfl

lemma divE_eq (std : ℝ) (avg : ℚ) :
    (if 0 < avg then pyDivR std avg else some 0)
      = some (if 0 < avg then std / (avg : ℝ) else 0) := by
  unfold pyDivR
  split_ifs with h h0
  · exact absurd h0 (ne_of_gt h)
  · rfl
  · rfl

lemma mapM_eq_some {α β : Type} (f : α → Option β) (g : α → β)
    (h : ∀ a, f a = some (g a)) : ∀ l : List α, l.mapM f = some (l.map g) := by
  intro l
  induction l with
  | nil => rfl
  | cons a l ih =>
    rw [List.mapM_cons, h a, ih]
    rfl

/-- C9: none of the statistics-core functions can raise on inputs of the
shapes the specification describes: each fallible embedding returns
exactly the value of the corresponding total function, never `none`. -/
theorem c9_no_exceptions (values : List ℚ) (a : Analysis) (analyses : List Analysis) :
    calculate_statisticsE values = some (calculate_statistics values) ∧
    calculate_heuristic_scoreE a = some (calculate_heuristic_score a) ∧
    calculate_consistency_metricsE a = some (calculate_consistency_metrics a) ∧
    rank_datasetsE analyses = some (rank_datasets analyses) := by
  have hheur : ∀ b : Analysis, calculate_heuristic_scoreE b = some (calculate_heuristic_score b) := by
    intro b
    by_cases h : b.averages.latency = 0 <;>
      simp [calculate_heuristic_scoreE, calculate_heuristic_score, pyDiv, h]
  refine ⟨?_, hheur a, ?_, ?_⟩
  · cases values with
    | nil => rfl
    | cons v vs =>
      simp [calculate_statisticsE, calculate_statistics, pyMin, pyMax, pyMedian,
        listMin, listMax]
  · simp only [calculate_consistency_metricsE, stdE_eq, divE_eq]
    simp only [Option.bind_eq_bind, Option.some_bind]
    rfl
  · unfold rank_datasetsE rank_datasets
    rw [mapM_eq_some _ (fun a => (a.filename, calculate_heuristic_score a))
      (fun b => by rw [hheur b]; rfl) analyses]
    rfl

end SpeedAnalysis
